import Mathlib

/-!
Verification of the natural-language test-automation server.

The definitions below are a shallow embedding of the JavaScript sources
`server/services/nlpService.js` (command translation, validation, the
deterministic fallback, and the session routes) and
`server/services/testExecutor.js` (the execution engine), together with
the SQLite schema from `server/database/init.js`.

Modelling conventions:
* JavaScript strings are `List Char` (`Str`); string literals are written
  through `str`.
* A possibly-absent (`undefined`/`null`) field is an `Option`; JavaScript
  truthiness of strings (`undefined`, `null` and `""` are falsy) is
  captured by `jsOrStr`/`jsFalsyS`, of numbers (`0` falsy) by `jsOrNat`.
* External capabilities (OpenAI, Playwright, the filesystem clock) are
  oracles: the language model is an `LlmResult`, the browser a `Browser`
  record of result functions.  Wall-clock data (timestamps, durations)
  is outside the model.
-/

namespace AutoTest

abbrev Str := List Char

def str (s : String) : Str := s.data

/-- JavaScript `a || d` for string-valued `a` (`undefined`, `null`, `""` falsy). -/
def jsOrStr : Option Str → Str → Str
  | none, d => d
  | some [], d => d
  | some (c :: cs), _ => c :: cs

/-- JavaScript `a || null` for string-valued `a`. -/
def jsOrNull : Option Str → Option Str
  | none => none
  | some [] => none
  | some (c :: cs) => some (c :: cs)

/-- JavaScript `a || d` for number-valued `a` (`undefined`, `null`, `0` falsy). -/
def jsOrNat : Option Nat → Nat → Nat
  | none, d => d
  | some 0, d => d
  | some (n + 1), _ => n + 1

/-- JavaScript falsiness test of a possibly-absent string (`!x`). -/
def jsFalsyS : Option Str → Bool
  | none => true
  | some s => s.isEmpty

/-- String interpolation `${x}` of a possibly-absent value. -/
def showOptStr : Option Str → Str
  | none => str "undefined"
  | some s => s

/-- Boolean prefix test on character lists (the engine's string matching). -/
def pfx : Str → Str → Bool
  | [], _ => true
  | _ :: _, [] => false
  | a :: ps, b :: ss => decide (a = b) && pfx ps ss

/-- JavaScript `haystack.includes(needle)`: substring containment. -/
def containsSub (n : Str) : Str → Bool
  | [] => pfx n []
  | c :: t => pfx n (c :: t) || containsSub n t

/-- An action object as produced by the model or the fallback, before
validation: every field may be absent (`nlpService.js`, system prompt
schema `{type, target, value, description, waitFor, timeout}`). -/
structure RawAction where
  type : Option Str
  target : Option Str
  value : Option Str
  description : Option Str
  waitFor : Option Str
  timeout : Option Nat
deriving DecidableEq

/-- The normalized action produced by `validateAction` (`nlpService.js`
lines 138-145): all defaults filled in. -/
structure Action where
  type : Str
  target : Str
  value : Str
  description : Str
  waitFor : Option Str
  timeout : Nat
deriving DecidableEq

/-- `SUPPORTED_ACTIONS` (`nlpService.js` lines 9-20). -/
def SUPPORTED_ACTIONS : List Str :=
  [str "navigate", str "click", str "type", str "wait", str "verify",
   str "scroll", str "hover", str "select", str "upload", str "screenshot"]

/-- The `validatedAction` object built with defaults in `validateAction`
(`nlpService.js` lines 138-145). -/
def normalizeAction (action : RawAction) : Action :=
  { type := action.type.getD []
    target := jsOrStr action.target []
    value := jsOrStr action.value []
    description := jsOrStr action.description
      (str "Execute " ++ action.type.getD [] ++ str " action")
    waitFor := jsOrNull action.waitFor
    timeout := jsOrNat action.timeout 30000 }

/-- `validateAction` (`nlpService.js` lines 128-169): closed kind set,
defaults, and per-kind required-field checks.  Throwing is `Except.error`
with the thrown message. -/
def validateAction (action : RawAction) : Except Str Action :=
  if jsFalsyS action.type || !(SUPPORTED_ACTIONS.contains (action.type.getD [])) then
    .error (str "Invalid action type: " ++ showOptStr action.type)
  else
    if (normalizeAction action).type = str "navigate" ∧ (normalizeAction action).value = [] ∧
        (normalizeAction action).target = [] then
      .error (str "Navigate action requires a URL in value or target field")
    else if (normalizeAction action).type = str "type" ∧ (normalizeAction action).value = [] then
      .error (str "Type action requires a value to type")
    else if (normalizeAction action).type = str "verify" ∧ (normalizeAction action).value = [] ∧
        (normalizeAction action).target = [] then
      .error (str "Verify action requires something to verify")
    else
      .ok (normalizeAction action)

/-- The three quote characters of the regex `/['"`]([^'"`]+)['"`]/`
(the apostrophe is `Char.ofNat 39`, the backquote `Char.ofNat 96`). -/
def isQuoteChar (c : Char) : Bool :=
  c = Char.ofNat 39 || c = '"' || c = Char.ofNat 96

/-- `extractQuotedText` (`nlpService.js` lines 224-227): leftmost match of
`/['"`]([^'"`]+)['"`]/` — the first maximal nonempty run of non-quote
characters enclosed by (not necessarily matching) quote characters. -/
def extractQuotedText : Str → Option Str
  | [] => none
  | c :: rest =>
    if isQuoteChar c then
      match rest.takeWhile (fun x => !(isQuoteChar x)),
            rest.dropWhile (fun x => !(isQuoteChar x)) with
      | r :: rs, _ :: _ => some (r :: rs)
      | _, _ => extractQuotedText rest
    else extractQuotedText rest

/-- The whitespace class `\s` of `extractUrl`'s regex (common cases). -/
def isSpaceJs (c : Char) : Bool :=
  c = ' ' || c = '\t' || c = '\n' || c = '\r'

/-- One anchored attempt of the regex `/(https?:\/\/[^\s]+)/`. -/
def urlAt (s : Str) : Option Str :=
  let scheme : Option Str :=
    if pfx (str "https://") s then some (str "https://")
    else if pfx (str "http://") s then some (str "http://")
    else none
  match scheme with
  | some p =>
    let run := (s.drop p.length).takeWhile (fun c => !(isSpaceJs c))
    if run = [] then none else some (p ++ run)
  | none => none

/-- `extractUrl` (`nlpService.js` lines 234-238): leftmost match of
`/(https?:\/\/[^\s]+)/`. -/
def extractUrl : Str → Option Str
  | [] => none
  | c :: t =>
    match urlAt (c :: t) with
    | some u => some u
    | none => extractUrl t

/-- The `navigate`/`go to` arm of `getFallbackAction` (`nlpService.js`
lines 203-214), reached when the earlier arms did not return. -/
def getFallbackNav (command lowerCommand : Str) : Option RawAction :=
  if containsSub (str "navigate") lowerCommand || containsSub (str "go to") lowerCommand then
    match extractUrl command with
    | some url =>
      some { type := some (str "navigate"), target := some url, value := some url,
             description := some (str "Navigate to " ++ url),
             waitFor := none, timeout := some 30000 }
    | none => none
  else none

/-- `getFallbackAction` (`nlpService.js` lines 176-217).  The `click` arm
is checked first and always returns; the `type`/`enter` arm returns only
when a quoted text is found, otherwise control falls through to the
navigation arm. -/
def getFallbackAction (command : Str) : Option RawAction :=
  let lowerCommand := command.map Char.toLower
  if containsSub (str "click") lowerCommand then
    let buttonText := (extractQuotedText command).getD (str "button")
    some { type := some (str "click")
           target := some (str "button:has-text(" ++ [Char.ofNat 39] ++ buttonText ++
                           [Char.ofNat 39] ++ str "), [data-testid*=" ++ [Char.ofNat 39] ++
                           buttonText.map Char.toLower ++ [Char.ofNat 39] ++ str "]")
           value := none
           description := some (str "Click " ++ buttonText)
           waitFor := none, timeout := some 30000 }
  else if containsSub (str "type") lowerCommand || containsSub (str "enter") lowerCommand then
    match extractQuotedText command with
    | some text =>
      if text ≠ [] then
        some { type := some (str "type"), target := some (str "input, textarea")
               value := some text
               description := some (str "Type \"" ++ text ++ str "\"")
               waitFor := none, timeout := some 30000 }
      else getFallbackNav command lowerCommand
    | none => getFallbackNav command lowerCommand
  else getFallbackNav command lowerCommand

/-- Outcome of the call to the external language capability in
`translateCommand`: the API call failed, the response was not JSON, or it
parsed to an object. -/
inductive LlmResult where
  | unavailable
  | malformed
  | action (a : RawAction)

/-- Re-exposing a validated action as the returned object
(`translateCommand` returns `validatedAction` on the success path). -/
def actionToRaw (a : Action) : RawAction :=
  { type := some a.type, target := some a.target, value := some a.value,
    description := some a.description, waitFor := a.waitFor, timeout := some a.timeout }

/-- The catch block of `translateCommand` (`nlpService.js` lines 109-120):
fall back to pattern matching, else rethrow. -/
def fallbackOr (command err : Str) : Except Str RawAction :=
  match getFallbackAction command with
  | some fa => .ok fa
  | none => .error (str "Failed to translate command: " ++ err)

/-- `translateCommand` (`nlpService.js` lines 72-121).  Any error in the
try block — capability failure, unparseable response, or a validation
error — reaches the catch block and the fallback. -/
def translateCommand (llm : LlmResult) (command : Str) : Except Str RawAction :=
  match llm with
  | .action a =>
    match validateAction a with
    | .ok v => .ok (actionToRaw v)
    | .error e => fallbackOr command e
  | .unavailable => fallbackOr command (str "API Error")
  | .malformed => fallbackOr command (str "Invalid response format from AI model")

/-- The action kind of a translation result, when one was produced. -/
def translatedType (r : Except Str RawAction) : Option (Option Str) :=
  match r with
  | .ok a => some a.type
  | .error _ => none

/-! ### Store model

The SQLite rows of `server/database/init.js`, restricted to the columns
the services read or write.  Timing columns (`created_at`, `updated_at`,
`execution_time`) are wall-clock data and outside the model. -/

/-- A `test_steps` row.  `translated_action` is the parsed JSON object;
`none` models a `NULL`/unparseable column, on which `JSON.parse` throws. -/
structure DbStepRow where
  id : Str
  session_id : Str
  step_number : Nat
  original_command : Str
  translated_action : Option RawAction
  status : Str
  actual_result : Option Str
  error_message : Option Str
  screenshot_path : Option Str
deriving DecidableEq

/-- A `test_sessions` row (status column defaults to `'pending'`). -/
structure DbSessionRow where
  id : Str
  name : Str
  status : Str
  total_steps : Nat
  passed_steps : Nat
  failed_steps : Nat
deriving DecidableEq

structure Db where
  sessions : List DbSessionRow
  steps : List DbStepRow
deriving DecidableEq

def emptyDb : Db := { sessions := [], steps := [] }

/-! ### Browser capability

The Playwright surface consumed by `testExecutor.js`, as result oracles:
each field gives the outcome the live page would produce for that call.
`screenshotResult` is indexed by the number of capture attempts already
made in the session, so distinct attempts may fail independently. -/

structure Browser where
  gotoResult : Str → Nat → Except Str Unit
  waitForSelectorResult : Str → Nat → Except Str Unit
  clickResult : Str → Nat → Except Str Unit
  fillResult : Str → Str → Except Str Unit
  hoverResult : Str → Nat → Except Str Unit
  selectOptionResult : Str → Str → Nat → Except Str Unit
  scrollResult : Str → Except Str Unit
  pageTitle : Str
  isVisible : Str → Bool
  textContent : Str → Str
  screenshotResult : Nat → Except Str Unit

/-! ### Step executor (`testExecutor.js`) -/

/-- `executeNavigate` (lines 175-179): `page.goto(action.value ||
action.target, {timeout: action.timeout})`. -/
def executeNavigate (b : Browser) (action : RawAction) : Except Str Unit :=
  b.gotoResult (jsOrStr action.value (action.target.getD [])) (action.timeout.getD 30000)

/-- JavaScript `target.split(',')`. -/
def splitComma : Str → List Str
  | [] => [[]]
  | c :: rest =>
    if c = ',' then [] :: splitComma rest
    else
      match splitComma rest with
      | h :: t => (c :: h) :: t
      | [] => [[c]]

/-- JavaScript `s.trim()` (common whitespace). -/
def trim (s : Str) : Str :=
  ((s.dropWhile isSpaceJs).reverse.dropWhile isSpaceJs).reverse

/-- The error thrown when no click selector works (line 200). -/
def clickErrMsg (target : Str) : Str :=
  str "Could not find clickable element with any of the selectors: " ++ target

/-- The error thrown when no type selector works (line 221). -/
def typeErrMsg (target : Str) : Str :=
  str "Could not find input element with any of the selectors: " ++ target

/-- The selector loop of `executeClick` (lines 190-198): probe each
candidate with a 5000ms existence timeout, click the first that
resolves; a failed probe or click is swallowed and the next candidate is
tried.  The second component records the selectors the click was
actually attempted on. -/
def executeClickLoop (b : Browser) (timeout : Nat) (target : Str) :
    List Str → Except Str Unit × List Str
  | [] => (.error (clickErrMsg target), [])
  | s :: rest =>
    match b.waitForSelectorResult s 5000 with
    | .error _ => executeClickLoop b timeout target rest
    | .ok _ =>
      match b.clickResult s timeout with
      | .ok _ => (.ok (), [s])
      | .error _ =>
        let r := executeClickLoop b timeout target rest
        (r.1, s :: r.2)

/-- `executeClick` (lines 184-201). -/
def executeClick (b : Browser) (action : RawAction) : Except Str Unit × List Str :=
  executeClickLoop b (action.timeout.getD 30000) (action.target.getD [])
    ((splitComma (action.target.getD [])).map trim)

/-- The selector loop of `executeType` (lines 211-219): as for click,
but `page.fill(selector, action.value)` takes no timeout. -/
def executeTypeLoop (b : Browser) (value : Str) (target : Str) :
    List Str → Except Str Unit × List Str
  | [] => (.error (typeErrMsg target), [])
  | s :: rest =>
    match b.waitForSelectorResult s 5000 with
    | .error _ => executeTypeLoop b value target rest
    | .ok _ =>
      match b.fillResult s value with
      | .ok _ => (.ok (), [s])
      | .error _ =>
        let r := executeTypeLoop b value target rest
        (r.1, s :: r.2)

/-- `executeType` (lines 206-222). -/
def executeType (b : Browser) (action : RawAction) : Except Str Unit × List Str :=
  executeTypeLoop b (action.value.getD []) (action.target.getD [])
    ((splitComma (action.target.getD [])).map trim)

/-- `executeWait` (lines 227-236): a fixed delay (which cannot fail) when
the target is `'time'` or absent, else wait for the selector. -/
def executeWait (b : Browser) (action : RawAction) : Except Str Unit :=
  if action.target.getD [] = str "time" ∨ action.target.getD [] = [] then
    .ok ()
  else
    b.waitForSelectorResult (action.target.getD []) (action.timeout.getD 30000)

/-- `executeVerify` (lines 241-271).  For `title`, a case-sensitive
substring check of the expected value against `page.title()`; for
elements, visibility and, when a value is given, a substring check
against the text content. -/
def executeVerify (b : Browser) (action : RawAction) : Except Str Str :=
  if action.target.getD [] = str "title" then
    if containsSub (action.value.getD []) b.pageTitle then
      .ok (str "Title verification passed: \"" ++ b.pageTitle ++
           str "\" contains \"" ++ action.value.getD [] ++ str "\"")
    else
      .error (str "Title verification failed: \"" ++ b.pageTitle ++
              str "\" does not contain \"" ++ action.value.getD [] ++ str "\"")
  else
    if !(b.isVisible (action.target.getD [])) then
      .error (str "Element not visible: " ++ action.target.getD [])
    else if action.value.getD [] ≠ [] then
      if !(containsSub (action.value.getD []) (b.textContent (action.target.getD []))) then
        .error (str "Text verification failed: \"" ++ b.textContent (action.target.getD []) ++
                str "\" does not contain \"" ++ action.value.getD [] ++ str "\"")
      else
        .ok (str "Text verification passed: found \"" ++ action.value.getD [] ++ str "\"")
    else
      .ok (str "Element verification passed: " ++ action.target.getD [] ++ str " is visible")

/-- `executeScroll` (lines 276-287): `window.scrollTo` cannot fail;
scrolling to an element may. -/
def executeScroll (b : Browser) (action : RawAction) : Except Str Unit :=
  if action.target.getD [] = str "top" then .ok ()
  else if action.target.getD [] = str "bottom" then .ok ()
  else b.scrollResult (action.target.getD [])

/-- `executeHover` (lines 292-295). -/
def executeHover (b : Browser) (action : RawAction) : Except Str Unit :=
  b.hoverResult (action.target.getD []) (action.timeout.getD 30000)

/-- `executeSelect` (lines 300-303). -/
def executeSelect (b : Browser) (action : RawAction) : Except Str Unit :=
  b.selectOptionResult (action.target.getD []) (action.value.getD [])
    (action.timeout.getD 30000)

/-- `takeScreenshot` (lines 308-325): the whole body is wrapped in
try/catch and returns `null` on any capture error — it never throws.
`k` is the session's capture-attempt counter (returned incremented); the
timestamp in the stored filename is wall-clock data and is omitted. -/
def takeScreenshot (b : Browser) (k : Nat) (sessionId stepId ty : Str) :
    Option Str × Nat :=
  match b.screenshotResult k with
  | .ok _ =>
    (some (str "/screenshots/" ++ sessionId ++ str "_" ++ stepId ++ str "_" ++
           ty ++ str ".png"), k + 1)
  | .error _ => (none, k + 1)

/-- The in-memory `result` object of `executeStep` (lines 84-90).  The
literal never contains a `critical` property, so reading
`result.critical` in `executeTest` yields `undefined`; the field is
`Option Bool` to model exactly that. -/
structure StepResult where
  stepId : Str
  status : Str
  error : Option Str
  actualResult : Option Str
  critical : Option Bool
deriving DecidableEq

/-- `updateStepStatus` (lines 347-358). -/
def updateStepStatus (db : Db) (stepId stat : Str) : Db :=
  { db with steps := db.steps.map fun r =>
      if r.id = stepId then { r with status := stat } else r }

/-- `updateStepResult` (lines 363-378). -/
def updateStepResult (db : Db) (stepId : Str) (result : StepResult)
    (shot : Option Str) : Db :=
  { db with steps := db.steps.map fun r =>
      if r.id = stepId then
        { r with status := result.status, actual_result := result.actualResult,
                 error_message := result.error, screenshot_path := shot }
      else r }

/-- The `switch (action.type)` dispatch of `executeStep` (lines 101-141):
the outcome of the action (with the verify message as actual result), the
screenshot path set by an explicit screenshot action, and the updated
capture counter. -/
def dispatchAction (b : Browser) (sessionId stepId : Str) (k : Nat)
    (action : RawAction) : Except Str (Option Str) × Option Str × Nat :=
  let ty := action.type.getD []
  if ty = str "navigate" then ((executeNavigate b action).map fun _ => none, none, k)
  else if ty = str "click" then ((executeClick b action).1.map fun _ => none, none, k)
  else if ty = str "type" then ((executeType b action).1.map fun _ => none, none, k)
  else if ty = str "wait" then ((executeWait b action).map fun _ => none, none, k)
  else if ty = str "verify" then ((executeVerify b action).map fun m => some m, none, k)
  else if ty = str "scroll" then ((executeScroll b action).map fun _ => none, none, k)
  else if ty = str "hover" then ((executeHover b action).map fun _ => none, none, k)
  else if ty = str "select" then ((executeSelect b action).map fun _ => none, none, k)
  else if ty = str "screenshot" then
    let shot := takeScreenshot b k sessionId stepId (str "step")
    (.ok none, shot.1, shot.2)
  else (.error (str "Unsupported action type: " ++ ty), none, k)

/-- `executeStep` (lines 81-170).  Returns the result object, the store
after the `finally` write, and the capture-attempt counter.  A `none`
action models `JSON.parse` throwing before the `running` update, which
lands in the catch block like any action failure. -/
def executeStep (b : Browser) (sessionId : Str) (db : Db) (k : Nat)
    (step : DbStepRow) : StepResult × Db × Nat :=
  match step.translated_action with
  | none =>
    let shot := takeScreenshot b k sessionId step.id (str "error")
    let result : StepResult :=
      { stepId := step.id, status := str "failed",
        error := some (str "Unexpected token in JSON"), actualResult := none,
        critical := none }
    (result, updateStepResult db step.id result shot.1, shot.2)
  | some action =>
    let db1 := updateStepStatus db step.id (str "running")
    match dispatchAction b sessionId step.id k action with
    | (.ok actual, explicitShot, k1) =>
      let post : Option Str × Nat :=
        match explicitShot with
        | some p => (some p, k1)
        | none => takeScreenshot b k1 sessionId step.id (str "step")
      let result : StepResult :=
        { stepId := step.id, status := str "passed", error := none,
          actualResult := some (jsOrStr actual (str "Action completed successfully")),
          critical := none }
      (result, updateStepResult db1 step.id result post.1, post.2)
    | (.error e, _, k1) =>
      let shot := takeScreenshot b k1 sessionId step.id (str "error")
      let result : StepResult :=
        { stepId := step.id, status := str "failed", error := some e,
          actualResult := none, critical := none }
      (result, updateStepResult db1 step.id result shot.1, shot.2)

/-- The step loop of `executeTest` (lines 49-58): run each step, stop
only when a failed result is also flagged critical (`result.critical`,
read with JavaScript truthiness). -/
def executeTestLoop (b : Browser) (sessionId : Str) :
    List DbStepRow → Db → Nat → List StepResult × Db × Nat
  | [], db, k => ([], db, k)
  | step :: rest, db, k =>
    let one := executeStep b sessionId db k step
    if decide (one.1.status = str "failed") && one.1.critical.getD false then
      ([one.1], one.2.1, one.2.2)
    else
      let more := executeTestLoop b sessionId rest one.2.1 one.2.2
      (one.1 :: more.1, more.2.1, more.2.2)

/-- `executeTest` (lines 23-72): browser/page acquisition and release are
resource management around the loop; the results and the final store are
what the caller observes. -/
def executeTest (b : Browser) (sessionId : Str) (steps : List DbStepRow)
    (db : Db) : List StepResult × Db :=
  let out := executeTestLoop b sessionId steps db 0
  (out.1, out.2.1)

/-! ### Session routes (`nlpService.js` routes file) -/

/-- A step of the `/create` response (lines 314-330). -/
structure RespStep where
  id : Str
  stepNumber : Nat
  status : Str
deriving DecidableEq

/-- The translate-and-insert loop of `router.post('/create')` (lines
292-331): a successfully translated command is inserted as a pending
`test_steps` row; a failed translation is reported in the response only
and never persisted. -/
def createLoop (llm : Str → LlmResult) (gen : Nat → Str) (sessionId : Str) :
    Nat → List Str → Db → Db × List RespStep
  | _, [], db => (db, [])
  | i, command :: rest, db =>
    match translateCommand (llm command) command with
    | .ok a =>
      let db1 : Db := { db with steps := db.steps ++
        [{ id := gen i, session_id := sessionId, step_number := i + 1,
           original_command := command, translated_action := some a,
           status := str "pending", actual_result := none,
           error_message := none, screenshot_path := none }] }
      let out := createLoop llm gen sessionId (i + 1) rest db1
      (out.1, { id := gen i, stepNumber := i + 1, status := str "pending" } :: out.2)
    | .error _ =>
      let out := createLoop llm gen sessionId (i + 1) rest db
      (out.1, { id := gen i, stepNumber := i + 1, status := str "failed" } :: out.2)

/-- `router.post('/create')` (lines 269-346): insert the session row
(`total_steps = commands.length`, status left at the schema default
`'pending'`) and translate each command in order.  `gen` supplies the
step UUIDs. -/
def createSession (llm : Str → LlmResult) (gen : Nat → Str)
    (sessionId name : Str) (commands : List Str) (db : Db) : Db × List RespStep :=
  createLoop llm gen sessionId 0 commands
    { db with sessions := db.sessions ++
        [{ id := sessionId, name := name, status := str "pending",
           total_steps := commands.length, passed_steps := 0, failed_steps := 0 }] }

def findSession (db : Db) (sessionId : Str) : Option DbSessionRow :=
  db.sessions.find? fun s => decide (s.id = sessionId)

/-- `SELECT * FROM test_steps WHERE session_id = ? ORDER BY step_number`:
stable insertion sort on `step_number` over the session's rows. -/
def insertByNum (r : DbStepRow) : List DbStepRow → List DbStepRow
  | [] => [r]
  | x :: xs =>
    if r.step_number < x.step_number then r :: x :: xs else x :: insertByNum r xs

def sortByNum : List DbStepRow → List DbStepRow
  | [] => []
  | r :: rs => insertByNum r (sortByNum rs)

def stepsOf (db : Db) (sessionId : Str) : List DbStepRow :=
  sortByNum (db.steps.filter fun r => decide (r.session_id = sessionId))

def updateSessionRunning (db : Db) (sessionId : Str) : Db :=
  { db with sessions := db.sessions.map fun s =>
      if s.id = sessionId then { s with status := str "running" } else s }

def updateSessionFinal (db : Db) (sessionId stat : Str) (passed failed : Nat) : Db :=
  { db with sessions := db.sessions.map fun s =>
      if s.id = sessionId then
        { s with status := stat, passed_steps := passed, failed_steps := failed }
      else s }

/-- The `/execute/:sessionId` response: 404 for a missing session, else
the summary payload (lines 409-418). -/
inductive ExecuteResponse where
  | notFound
  | ok (sessionId stat : Str) (results : List StepResult)
       (total passed failed : Nat)
deriving DecidableEq

/-- `router.post('/execute/:sessionId')` (lines 349-424).  The session's
current status is never consulted: any existing session is marked
`running` and executed; only a missing row is rejected (404). -/
def executeSession (b : Browser) (db : Db) (sessionId : Str) :
    ExecuteResponse × Db :=
  match findSession db sessionId with
  | none => (.notFound, db)
  | some _ =>
    let steps := stepsOf db sessionId
    let db1 := updateSessionRunning db sessionId
    let run := executeTest b sessionId steps db1
    let passedSteps := (run.1.filter fun r => decide (r.status = str "passed")).length
    let failedSteps := (run.1.filter fun r => decide (r.status = str "failed")).length
    let finalStatus := if failedSteps > 0 then str "failed" else str "passed"
    let db3 := updateSessionFinal run.2 sessionId finalStatus passedSteps failedSteps
    (.ok sessionId finalStatus run.1 steps.length passedSteps failedSteps, db3)

/-- Status counting over a session's persisted rows. -/
def sessionRows (db : Db) (sessionId : Str) : List DbStepRow :=
  db.steps.filter fun r => decide (r.session_id = sessionId)

def countStatus (db : Db) (sessionId stat : Str) : Nat :=
  ((sessionRows db sessionId).filter fun r => decide (r.status = stat)).length

def totalSteps (db : Db) (sessionId : Str) : Nat :=
  match findSession db sessionId with
  | some s => s.total_steps
  | none => 0

/-- The persisted status of a step row, by id. -/
def rowStatus (db : Db) (stepId : Str) : Option Str :=
  (db.steps.find? fun r => decide (r.id = stepId)).map DbStepRow.status

/-! Basic facts about the string helpers. -/

theorem pfx_iff (p s : Str) : pfx p s = true ↔ p <+: s := by
  induction p generalizing s with
  | nil => simp [pfx]
  | cons a ps ih =>
    cases s with
    | nil => simp [pfx]
    | cons b ss => simp [pfx, ih, List.cons_prefix_cons]

theorem containsSub_iff (n h : Str) : containsSub n h = true ↔ n <:+: h := by
  induction h with
  | nil =>
    simp [containsSub, pfx_iff]
  | cons c t ih =>
    rw [containsSub, Bool.or_eq_true, pfx_iff, ih, List.infix_cons_iff]

theorem takeWhile_all_stop {p : Char → Bool} {t rest : Str} {b : Char}
    (ht : ∀ c ∈ t, p c = true) (hb : p b = false) :
    (t ++ b :: rest).takeWhile p = t := by
  induction t with
  | nil => simp [List.takeWhile, hb]
  | cons x xs ih =>
    have hx : p x = true := ht x (by simp)
    simp only [List.cons_append, List.takeWhile_cons, hx]
    simp [ih fun c hc => ht c (by simp [hc])]

theorem dropWhile_all_stop {p : Char → Bool} {t rest : Str} {b : Char}
    (ht : ∀ c ∈ t, p c = true) (hb : p b = false) :
    (t ++ b :: rest).dropWhile p = b :: rest := by
  induction t with
  | nil => simp [List.dropWhile, hb]
  | cons x xs ih =>
    have hx : p x = true := ht x (by simp)
    simp only [List.cons_append, List.dropWhile_cons, hx]
    exact ih fun c hc => ht c (by simp [hc])

/-- `extractQuotedText` returns the contents of the first quote-delimited
run: a nonempty quote-free `t` between two quote characters, preceded by
quote-free text, is extracted. -/
theorem extractQuotedText_first (pre t post : Str) (q q' : Char)
    (hq : isQuoteChar q = true) (hq' : isQuoteChar q' = true)
    (hpre : ∀ c ∈ pre, isQuoteChar c = false)
    (ht : ∀ c ∈ t, isQuoteChar c = false) (htne : t ≠ []) :
    extractQuotedText (pre ++ q :: (t ++ q' :: post)) = some t := by
  induction pre with
  | nil =>
    rw [List.nil_append, extractQuotedText, if_pos hq]
    have h1 : (t ++ q' :: post).takeWhile (fun x => !(isQuoteChar x)) = t :=
      takeWhile_all_stop (fun c hc => by simp [ht c hc]) (by simp [hq'])
    have h2 : (t ++ q' :: post).dropWhile (fun x => !(isQuoteChar x)) = q' :: post :=
      dropWhile_all_stop (fun c hc => by simp [ht c hc]) (by simp [hq'])
    rw [h1, h2]
    cases t with
    | nil => exact absurd rfl htne
    | cons r rs => rfl
  | cons a pre ih =>
    have ha : isQuoteChar a = false := hpre a (by simp)
    rw [List.cons_append, extractQuotedText, if_neg (by simp [ha])]
    exact ih fun c hc => hpre c (by simp [hc])

theorem within_append_left {l₁ l₂ : Str} (h : l₁ <:+: l₂) (l₃ : Str) :
    l₁ <:+: l₃ ++ l₂ := by
  obtain ⟨u, v, huv⟩ := h
  exact ⟨l₃ ++ u, v, by rw [← huv]; simp⟩

theorem splitComma_struct (l : Str) :
    ∃ h t, splitComma l = h :: t ∧ h <+: l ∧ ∀ s ∈ t, s <:+: l := by
  induction l with
  | nil => exact ⟨[], [], rfl, List.nil_prefix, by simp⟩
  | cons c rest ih =>
    obtain ⟨h, t, heq, hpf, hmem⟩ := ih
    by_cases hc : c = ','
    · refine ⟨[], splitComma rest, ?_, List.nil_prefix, ?_⟩
      · rw [splitComma, if_pos hc]
      · intro s hs
        rw [heq] at hs
        rcases List.mem_cons.mp hs with hs | hs
        · exact List.infix_cons_iff.mpr (Or.inr (hs ▸ hpf.isInfix))
        · exact List.infix_cons_iff.mpr (Or.inr (hmem s hs))
    · refine ⟨c :: h, t, ?_, ?_, ?_⟩
      · rw [splitComma, if_neg hc, heq]
      · exact List.cons_prefix_cons.mpr ⟨rfl, hpf⟩
      · intro s hs
        exact List.infix_cons_iff.mpr (Or.inr (hmem s hs))

theorem splitComma_within {l s : Str} (hs : s ∈ splitComma l) : s <:+: l := by
  obtain ⟨h, t, heq, hpf, hmem⟩ := splitComma_struct l
  rw [heq] at hs
  rcases List.mem_cons.mp hs with hs | hs
  · exact hs ▸ hpf.isInfix
  · exact hmem s hs

theorem trim_within (s : Str) : trim s <:+: s := by
  have h1 : s.dropWhile isSpaceJs <:+ s := List.dropWhile_suffix _
  have h2 : (s.dropWhile isSpaceJs).reverse.dropWhile isSpaceJs <:+
      (s.dropWhile isSpaceJs).reverse := List.dropWhile_suffix _
  have h3 := List.reverse_prefix.mpr h2
  rw [List.reverse_reverse] at h3
  exact (List.IsPrefix.isInfix h3).trans h1.isInfix

/-! Facts about the selector-probing loops of `executeClick` and
`executeType`. -/

theorem executeClickLoop_first (b : Browser) (tmo : Nat) (target : Str)
    (sel : List Str) :
    ∀ c, sel.find? (fun s => (b.waitForSelectorResult s 5000).isOk) = some c →
      (executeClickLoop b tmo target sel).2.head? = some c := by
  induction sel with
  | nil => intro c hc; simp [List.find?] at hc
  | cons s rest ih =>
    intro c hc
    rw [executeClickLoop]
    cases hw : b.waitForSelectorResult s 5000 with
    | error e =>
      have hF : (b.waitForSelectorResult s 5000).isOk = false := by
        rw [hw]; rfl
      rw [List.find?_cons, hF] at hc
      simp only []
      exact ih c hc
    | ok u =>
      have hT : (b.waitForSelectorResult s 5000).isOk = true := by
        rw [hw]; rfl
      rw [List.find?_cons, hT] at hc
      have hsc : s = c := by injection hc
      subst hsc
      cases hcl : b.clickResult s tmo <;> simp

theorem executeClickLoop_none (b : Browser) (tmo : Nat) (target : Str)
    (sel : List Str)
    (h : sel.find? (fun s => (b.waitForSelectorResult s 5000).isOk) = none) :
    executeClickLoop b tmo target sel = (.error (clickErrMsg target), []) := by
  induction sel with
  | nil => rfl
  | cons s rest ih =>
    rw [executeClickLoop]
    cases hw : b.waitForSelectorResult s 5000 with
    | error e =>
      have hF : (b.waitForSelectorResult s 5000).isOk = false := by
        rw [hw]; rfl
      rw [List.find?_cons, hF] at h
      exact ih h
    | ok u =>
      have hT : (b.waitForSelectorResult s 5000).isOk = true := by
        rw [hw]; rfl
      rw [List.find?_cons, hT] at h
      cases h

theorem executeClickLoop_err (b : Browser) (tmo : Nat) (target : Str)
    (sel : List Str) :
    ∀ e, (executeClickLoop b tmo target sel).1 = .error e →
      e = clickErrMsg target := by
  induction sel with
  | nil =>
    intro e he
    rw [executeClickLoop] at he
    exact (Except.error.injEq _ _ ▸ he).symm
  | cons s rest ih =>
    intro e he
    rw [executeClickLoop] at he
    cases hw : b.waitForSelectorResult s 5000 with
    | error u => rw [hw] at he; exact ih e he
    | ok u =>
      rw [hw] at he
      cases hcl : b.clickResult s tmo with
      | ok v => rw [hcl] at he; cases he
      | error v => rw [hcl] at he; exact ih e he

theorem executeTypeLoop_first (b : Browser) (v : Str) (target : Str)
    (sel : List Str) :
    ∀ c, sel.find? (fun s => (b.waitForSelectorResult s 5000).isOk) = some c →
      (executeTypeLoop b v target sel).2.head? = some c := by
  induction sel with
  | nil => intro c hc; simp [List.find?] at hc
  | cons s rest ih =>
    intro c hc
    rw [executeTypeLoop]
    cases hw : b.waitForSelectorResult s 5000 with
    | error e =>
      have hF : (b.waitForSelectorResult s 5000).isOk = false := by
        rw [hw]; rfl
      rw [List.find?_cons, hF] at hc
      simp only []
      exact ih c hc
    | ok u =>
      have hT : (b.waitForSelectorResult s 5000).isOk = true := by
        rw [hw]; rfl
      rw [List.find?_cons, hT] at hc
      have hsc : s = c := by injection hc
      subst hsc
      cases hcl : b.fillResult s v <;> simp

theorem executeTypeLoop_none (b : Browser) (v : Str) (target : Str)
    (sel : List Str)
    (h : sel.find? (fun s => (b.waitForSelectorResult s 5000).isOk) = none) :
    executeTypeLoop b v target sel = (.error (typeErrMsg target), []) := by
  induction sel with
  | nil => rfl
  | cons s rest ih =>
    rw [executeTypeLoop]
    cases hw : b.waitForSelectorResult s 5000 with
    | error e =>
      have hF : (b.waitForSelectorResult s 5000).isOk = false := by
        rw [hw]; rfl
      rw [List.find?_cons, hF] at h
      exact ih h
    | ok u =>
      have hT : (b.waitForSelectorResult s 5000).isOk = true := by
        rw [hw]; rfl
      rw [List.find?_cons, hT] at h
      cases h

theorem executeTypeLoop_err (b : Browser) (v : Str) (target : Str)
    (sel : List Str) :
    ∀ e, (executeTypeLoop b v target sel).1 = .error e →
      e = typeErrMsg target := by
  induction sel with
  | nil =>
    intro e he
    rw [executeTypeLoop] at he
    exact (Except.error.injEq _ _ ▸ he).symm
  | cons s rest ih =>
    intro e he
    rw [executeTypeLoop] at he
    cases hw : b.waitForSelectorResult s 5000 with
    | error u => rw [hw] at he; exact ih e he
    | ok u =>
      rw [hw] at he
      cases hcl : b.fillResult s v with
      | ok w => rw [hcl] at he; cases he
      | error w => rw [hcl] at he; exact ih e he

theorem mapped_selector_within {target : Str} {s : Str}
    (hs : s ∈ (splitComma target).map trim) : s <:+: target := by
  obtain ⟨s₀, hs₀, rfl⟩ := List.mem_map.mp hs
  exact (trim_within s₀).trans (splitComma_within hs₀)

/-! ### Claims about the command translator -/

/-- C4 (counterexample): the instruction
`Go to https://example.com and click "OK"` contains a navigation verb
with a URL and a click verb, yet the deterministic fallback translates it
to a `click` action, not a `navigate` action. -/
theorem fallback_click_over_navigate_cex :
    containsSub (str "go to")
      ((str "Go to https://example.com and click \"OK\"").map Char.toLower) = true ∧
    (extractUrl (str "Go to https://example.com and click \"OK\"")).isSome = true ∧
    containsSub (str "click")
      ((str "Go to https://example.com and click \"OK\"").map Char.toLower) = true ∧
    translatedType (translateCommand .unavailable
      (str "Go to https://example.com and click \"OK\"")) = some (some (str "click")) ∧
    some (some (str "click")) ≠ some (some (str "navigate")) := by
  refine ⟨by decide, by decide, by decide, by decide, by decide⟩

/-- C4 (amended): in the deterministic fallback the `click` pattern is
checked first, so for every instruction containing a click verb — even
one that also contains a navigation verb and a URL — the resulting action
has kind `click`; click takes priority over navigation. -/
theorem fallback_click_over_navigate (command : Str)
    (h : containsSub (str "click") (command.map Char.toLower) = true) :
    ∃ a, getFallbackAction command = some a ∧ a.type = some (str "click") := by
  rw [getFallbackAction]
  simp only [h, if_true]
  exact ⟨_, rfl, rfl⟩

/-- C4 witness: the amended theorem at `Click the login button`. -/
theorem fallback_click_over_navigate_w :
    ∃ a, getFallbackAction (str "Click the login button") = some a ∧
      a.type = some (str "click") :=
  fallback_click_over_navigate (str "Click the login button") (by decide)

/-- C5: for every raw action of kind `type`, an absent or empty `value`
makes `validateAction` reject it (naming the missing value field), and a
non-empty `value` is never rejected on that ground: validation succeeds
and keeps the value. -/
theorem validateAction_type_requires_value (a : RawAction)
    (h : a.type = some (str "type")) :
    (jsOrStr a.value [] = [] →
       validateAction a = .error (str "Type action requires a value to type")) ∧
    (jsOrStr a.value [] ≠ [] →
       ∃ r, validateAction a = .ok r ∧ r.value = jsOrStr a.value []) := by
  have h0 : (jsFalsyS a.type || !(SUPPORTED_ACTIONS.contains (a.type.getD []))) = false := by
    rw [h]; decide
  have hty : (normalizeAction a).type = str "type" := by
    show a.type.getD [] = str "type"
    rw [h]; rfl
  have hnav : ¬((normalizeAction a).type = str "navigate" ∧ (normalizeAction a).value = [] ∧
      (normalizeAction a).target = []) := by
    intro hc; rw [hty] at hc; exact absurd hc.1 (by decide)
  have hver : ¬((normalizeAction a).type = str "verify" ∧ (normalizeAction a).value = [] ∧
      (normalizeAction a).target = []) := by
    intro hc; rw [hty] at hc; exact absurd hc.1 (by decide)
  constructor <;> intro hv
  · rw [validateAction, if_neg (fun hcon => by rw [h0] at hcon; exact absurd hcon (by decide))]
    rw [if_neg hnav]
    rw [if_pos ⟨hty, hv⟩]
  · rw [validateAction, if_neg (fun hcon => by rw [h0] at hcon; exact absurd hcon (by decide))]
    rw [if_neg hnav]
    rw [if_neg (fun hc => absurd hc.2 hv)]
    rw [if_neg hver]
    exact ⟨_, rfl, rfl⟩

/-- C5 witness: a `type` action with no value is rejected with the value
error; one with value `"x"` passes validation keeping the value. -/
theorem validateAction_type_requires_value_w :
    validateAction ⟨some (str "type"), some (str "input"), none, none, none, none⟩ =
      .error (str "Type action requires a value to type") ∧
    ∃ r, validateAction ⟨some (str "type"), some (str "input"), some (str "x"),
        none, none, none⟩ = .ok r ∧ r.value = jsOrStr (some (str "x")) [] :=
  ⟨(validateAction_type_requires_value _ rfl).1 rfl,
   (validateAction_type_requires_value _ rfl).2 (by decide)⟩

/-- C6: with the language capability unavailable, `Type "hello" in the
box` falls back to the action `kind=type, value="hello",
target="input, textarea"`; in general the `type`/`enter` fallback takes
as value the first quoted string of the instruction
(`extractQuotedText`, whose first-match behaviour the third conjunct
characterizes). -/
theorem fallback_type_first_quoted :
    (translateCommand .unavailable (str "Type \"hello\" in the box") =
      .ok { type := some (str "type"), target := some (str "input, textarea"),
            value := some (str "hello"), description := some (str "Type \"hello\""),
            waitFor := none, timeout := some 30000 }) ∧
    (∀ command t,
       containsSub (str "click") (command.map Char.toLower) = false →
       (containsSub (str "type") (command.map Char.toLower) = true ∨
        containsSub (str "enter") (command.map Char.toLower) = true) →
       extractQuotedText command = some t → t ≠ [] →
       getFallbackAction command =
         some { type := some (str "type"), target := some (str "input, textarea"),
                value := some t, description := some (str "Type \"" ++ t ++ str "\""),
                waitFor := none, timeout := some 30000 }) ∧
    (∀ pre t post q q', isQuoteChar q = true → isQuoteChar q' = true →
       (∀ c ∈ pre, isQuoteChar c = false) → (∀ c ∈ t, isQuoteChar c = false) →
       t ≠ [] → extractQuotedText (pre ++ q :: (t ++ q' :: post)) = some t) := by
  refine ⟨rfl, ?_, fun pre t post q q' => extractQuotedText_first pre t post q q'⟩
  intro command t h1 h2 h3 h4
  rw [getFallbackAction]
  simp only [h1, if_false, Bool.false_eq_true]
  have h2' : (containsSub (str "type") (command.map Char.toLower) ||
      containsSub (str "enter") (command.map Char.toLower)) = true := by
    rcases h2 with h2 | h2 <;> simp [h2]
  simp only [h2', if_true, h3]
  rw [if_pos h4]

/-- C6 witness: the general fallback conjunct applied to
`Enter "abc" here`. -/
theorem fallback_type_first_quoted_w :
    getFallbackAction (str "Enter \"abc\" here") =
      some { type := some (str "type"), target := some (str "input, textarea"),
             value := some (str "abc"),
             description := some (str "Type \"abc\""),
             waitFor := none, timeout := some 30000 } :=
  fallback_type_first_quoted.2.1 (str "Enter \"abc\" here") (str "abc")
    (by decide) (Or.inr (by decide)) (by decide) (by decide)

/-- C10: every action accepted by `validateAction` has exactly the
normalized shape `{type, target, value, description, waitFor, timeout}`
with string target/value/description defaults filled in, and its timeout
is never falsy: an absent, null, or zero timeout is replaced by 30000. -/
theorem validateAction_fills_defaults (a : RawAction) (r : Action)
    (h : validateAction a = .ok r) :
    r.type = a.type.getD [] ∧
    r.target = jsOrStr a.target [] ∧
    r.value = jsOrStr a.value [] ∧
    r.description = jsOrStr a.description
      (str "Execute " ++ a.type.getD [] ++ str " action") ∧
    r.waitFor = jsOrNull a.waitFor ∧
    r.timeout = jsOrNat a.timeout 30000 ∧
    r.timeout ≠ 0 ∧
    ((a.timeout = none ∨ a.timeout = some 0) → r.timeout = 30000) := by
  rw [validateAction] at h
  split at h
  · exact absurd h (by simp)
  · split at h
    · exact absurd h (by simp)
    · split at h
      · exact absurd h (by simp)
      · split at h
        · exact absurd h (by simp)
        · rw [Except.ok.injEq] at h
          subst h
          refine ⟨rfl, rfl, rfl, rfl, rfl, rfl, ?_, ?_⟩
          · cases hto : a.timeout with
            | none => simp [normalizeAction, jsOrNat, hto]
            | some n =>
              cases n with
              | zero => simp [normalizeAction, jsOrNat, hto]
              | succ m => simp [normalizeAction, jsOrNat, hto]
          · rintro (hto | hto) <;> simp [normalizeAction, jsOrNat, hto]

/-- C10 witness: the shape theorem at a `click` action with every
optional field absent. -/
theorem validateAction_fills_defaults_w :
    (validateAction ⟨some (str "click"), some (str "#b"), none, none, none, none⟩ =
      .ok { type := str "click", target := str "#b", value := [],
            description := str "Execute click action", waitFor := none,
            timeout := 30000 }) ∧
    ({ type := str "click", target := str "#b", value := [],
       description := str "Execute click action", waitFor := none,
       timeout := 30000 : Action }.timeout = 30000) :=
  ⟨rfl, (validateAction_fills_defaults
    ⟨some (str "click"), some (str "#b"), none, none, none, none⟩ _ rfl).2.2.2.2.2.2.2
      (Or.inl rfl)⟩

/-! ### Claims about the step executor -/

/-- A browser oracle on `example.com`: every operation succeeds and the
page title is `Example Domain`. -/
def okBrowser : Browser :=
  { gotoResult := fun _ _ => .ok ()
    waitForSelectorResult := fun _ _ => .ok ()
    clickResult := fun _ _ => .ok ()
    fillResult := fun _ _ => .ok ()
    hoverResult := fun _ _ => .ok ()
    selectOptionResult := fun _ _ _ => .ok ()
    scrollResult := fun _ => .ok ()
    pageTitle := str "Example Domain"
    isVisible := fun _ => true
    textContent := fun _ => str ""
    screenshotResult := fun _ => .ok () }

/-- C7: for a `verify` action on `title`, the step passes exactly when
the expected value is a case-sensitive substring of the page title; the
success message contains both the title and the expected value, and the
failure error carries the actual title. -/
theorem verify_title_substring (b : Browser) (a : RawAction)
    (h : a.target = some (str "title")) :
    ((executeVerify b a).isOk = true ↔ (a.value.getD []) <:+: b.pageTitle) ∧
    (∀ m, executeVerify b a = .ok m →
       b.pageTitle <:+: m ∧ (a.value.getD []) <:+: m) ∧
    (∀ e, executeVerify b a = .error e → b.pageTitle <:+: e) := by
  have htgt : a.target.getD [] = str "title" := by rw [h]; rfl
  rw [executeVerify, if_pos htgt]
  cases hc : containsSub (a.value.getD []) b.pageTitle with
  | true =>
    simp only [hc, if_true]
    refine ⟨⟨fun _ => (containsSub_iff _ _).mp hc, fun _ => rfl⟩, ?_, ?_⟩
    · intro m hm
      have hm' : str "Title verification passed: \"" ++ b.pageTitle ++
          str "\" contains \"" ++ a.value.getD [] ++ str "\"" = m := by
        injection hm
      constructor
      · exact hm' ▸ ⟨str "Title verification passed: \"",
          str "\" contains \"" ++ a.value.getD [] ++ str "\"", by simp⟩
      · exact hm' ▸ ⟨str "Title verification passed: \"" ++ b.pageTitle ++
          str "\" contains \"", str "\"", by simp⟩
    · intro e he
      cases he
  | false =>
    simp only [hc, Bool.false_eq_true, if_false]
    refine ⟨⟨fun hk => by simp [Except.isOk, Except.toBool] at hk, ?_⟩, ?_, ?_⟩
    · intro hin
      exact absurd ((containsSub_iff _ _).mpr hin) (by simp [hc])
    · intro m hm
      cases hm
    · intro e he
      have he' : str "Title verification failed: \"" ++ b.pageTitle ++
          str "\" does not contain \"" ++ a.value.getD [] ++ str "\"" = e := by
        injection he
      exact he' ▸ ⟨str "Title verification failed: \"",
        str "\" does not contain \"" ++ a.value.getD [] ++ str "\"", by simp⟩

def verifyExample : RawAction :=
  { type := some (str "verify"), target := some (str "title"),
    value := some (str "Example"), description := none, waitFor := none,
    timeout := some 30000 }

def verifyNope : RawAction :=
  { type := some (str "verify"), target := some (str "title"),
    value := some (str "Nope"), description := none, waitFor := none,
    timeout := some 30000 }

/-- C7 witness: against the title `Example Domain`, verifying `Example`
passes and verifying `Nope` fails with the title in the error. -/
theorem verify_title_substring_w :
    (executeVerify okBrowser verifyExample).isOk = true ∧
    str "Example Domain" <:+:
      str "Title verification failed: \"Example Domain\" does not contain \"Nope\"" :=
  ⟨(verify_title_substring okBrowser verifyExample rfl).1.mpr
     ((containsSub_iff _ _).mp (by decide)),
   (verify_title_substring okBrowser verifyNope rfl).2.2 _ rfl⟩

/-- C8: for click and type actions with an ordered candidate list, each
candidate is probed with the 5000ms existence timeout and the action is
performed first on the first candidate that resolves; when no candidate
resolves the loop records nothing and fails with the error naming the
whole candidate list, and any error raised lists every candidate tried
(each candidate is contained in the message). -/
theorem selector_fallback_order (b : Browser) (a : RawAction) :
    (∀ c, ((splitComma (a.target.getD [])).map trim).find?
        (fun s => (b.waitForSelectorResult s 5000).isOk) = some c →
        (executeClick b a).2.head? = some c ∧ (executeType b a).2.head? = some c) ∧
    (((splitComma (a.target.getD [])).map trim).find?
        (fun s => (b.waitForSelectorResult s 5000).isOk) = none →
        executeClick b a = (.error (clickErrMsg (a.target.getD [])), []) ∧
        executeType b a = (.error (typeErrMsg (a.target.getD [])), [])) ∧
    (∀ e, (executeClick b a).1 = .error e →
        e = clickErrMsg (a.target.getD []) ∧
        ∀ s ∈ (splitComma (a.target.getD [])).map trim, s <:+: e) ∧
    (∀ e, (executeType b a).1 = .error e →
        e = typeErrMsg (a.target.getD []) ∧
        ∀ s ∈ (splitComma (a.target.getD [])).map trim, s <:+: e) := by
  refine ⟨?_, ?_, ?_, ?_⟩
  · intro c hc
    exact ⟨executeClickLoop_first b (a.timeout.getD 30000) (a.target.getD []) _ c hc,
           executeTypeLoop_first b (a.value.getD []) (a.target.getD []) _ c hc⟩
  · intro hnone
    exact ⟨executeClickLoop_none b (a.timeout.getD 30000) (a.target.getD []) _ hnone,
           executeTypeLoop_none b (a.value.getD []) (a.target.getD []) _ hnone⟩
  · intro e he
    have h1 := executeClickLoop_err b (a.timeout.getD 30000) (a.target.getD []) _ e he
    refine ⟨h1, fun s hs => ?_⟩
    rw [h1, clickErrMsg]
    exact within_append_left (mapped_selector_within hs) _
  · intro e he
    have h1 := executeTypeLoop_err b (a.value.getD []) (a.target.getD []) _ e he
    refine ⟨h1, fun s hs => ?_⟩
    rw [h1, typeErrMsg]
    exact within_append_left (mapped_selector_within hs) _

/-- A browser where only the selector `#b` exists. -/
def selBrowser : Browser :=
  { okBrowser with waitForSelectorResult := fun s _ =>
      if s = (str "#b") then .ok () else .error (str "Timeout 5000ms exceeded") }

def selAction : RawAction :=
  { type := some (str "click"), target := some (str ".a, #b, text=Foo"),
    value := some (str "x"), description := none, waitFor := none,
    timeout := some 30000 }

/-- C8 witness: with candidates `[.a, #b, text=Foo]` and only `#b`
resolving, both click and type act on `#b` first. -/
theorem selector_fallback_order_w :
    (executeClick selBrowser selAction).2.head? = some (str "#b") ∧
    (executeType selBrowser selAction).2.head? = some (str "#b") :=
  (selector_fallback_order selBrowser selAction).1 (str "#b") (by decide)

/-! Structural facts about `executeStep` and the step loop. -/

theorem takeScreenshot_k (b : Browser) (k : Nat) (sid stid ty : Str) :
    (takeScreenshot b k sid stid ty).2 = k + 1 := by
  rw [takeScreenshot]
  cases b.screenshotResult k <;> rfl

theorem executeClickLoop_nf (b : Browser) (f : Nat → Except Str Unit)
    (tmo : Nat) (target : Str) :
    ∀ sel, executeClickLoop { b with screenshotResult := f } tmo target sel =
      executeClickLoop b tmo target sel := by
  intro sel
  induction sel with
  | nil => rfl
  | cons s rest ih =>
    rw [executeClickLoop, executeClickLoop]
    show (match b.waitForSelectorResult s 5000 with
      | .error _ => executeClickLoop { b with screenshotResult := f } tmo target rest
      | .ok _ => match b.clickResult s tmo with
        | .ok _ => (.ok (), [s])
        | .error _ =>
          let r := executeClickLoop { b with screenshotResult := f } tmo target rest
          (r.1, s :: r.2)) = _
    cases b.waitForSelectorResult s 5000 with
    | error e => exact ih
    | ok u =>
      cases b.clickResult s tmo with
      | ok v => rfl
      | error v => simp only [ih]

theorem executeTypeLoop_nf (b : Browser) (f : Nat → Except Str Unit)
    (v : Str) (target : Str) :
    ∀ sel, executeTypeLoop { b with screenshotResult := f } v target sel =
      executeTypeLoop b v target sel := by
  intro sel
  induction sel with
  | nil => rfl
  | cons s rest ih =>
    rw [executeTypeLoop, executeTypeLoop]
    show (match b.waitForSelectorResult s 5000 with
      | .error _ => executeTypeLoop { b with screenshotResult := f } v target rest
      | .ok _ => match b.fillResult s v with
        | .ok _ => (.ok (), [s])
        | .error _ =>
          let r := executeTypeLoop { b with screenshotResult := f } v target rest
          (r.1, s :: r.2)) = _
    cases b.waitForSelectorResult s 5000 with
    | error e => exact ih
    | ok u =>
      cases b.fillResult s v with
      | ok w => rfl
      | error w => simp only [ih]

theorem dispatchAction_fst (b : Browser) (f : Nat → Except Str Unit)
    (sid stid : Str) (k : Nat) (a : RawAction) :
    (dispatchAction { b with screenshotResult := f } sid stid k a).1 =
      (dispatchAction b sid stid k a).1 := by
  rw [dispatchAction, dispatchAction]
  by_cases h1 : a.type.getD [] = str "navigate"
  · rw [if_pos h1, if_pos h1]; rfl
  rw [if_neg h1, if_neg h1]
  by_cases h2 : a.type.getD [] = str "click"
  · rw [if_pos h2, if_pos h2]
    show (Except.map _ ((executeClickLoop { b with screenshotResult := f } _ _ _).1),
      none, k).1 = _
    rw [executeClickLoop_nf]
    rfl
  rw [if_neg h2, if_neg h2]
  by_cases h3 : a.type.getD [] = str "type"
  · rw [if_pos h3, if_pos h3]
    show (Except.map _ ((executeTypeLoop { b with screenshotResult := f } _ _ _).1),
      none, k).1 = _
    rw [executeTypeLoop_nf]
    rfl
  rw [if_neg h3, if_neg h3]
  by_cases h4 : a.type.getD [] = str "wait"
  · rw [if_pos h4, if_pos h4]; rfl
  rw [if_neg h4, if_neg h4]
  by_cases h5 : a.type.getD [] = str "verify"
  · rw [if_pos h5, if_pos h5]; rfl
  rw [if_neg h5, if_neg h5]
  by_cases h6 : a.type.getD [] = str "scroll"
  · rw [if_pos h6, if_pos h6]; rfl
  rw [if_neg h6, if_neg h6]
  by_cases h7 : a.type.getD [] = str "hover"
  · rw [if_pos h7, if_pos h7]; rfl
  rw [if_neg h7, if_neg h7]
  by_cases h8 : a.type.getD [] = str "select"
  · rw [if_pos h8, if_pos h8]; rfl
  rw [if_neg h8, if_neg h8]
  by_cases h9 : a.type.getD [] = str "screenshot"
  · rw [if_pos h9, if_pos h9]
  simp only [if_neg h9]

theorem dispatchAction_nonshot (b : Browser) (sid stid : Str) (k : Nat)
    (a : RawAction) (h : a.type.getD [] ≠ str "screenshot") :
    (dispatchAction b sid stid k a).2.1 = none ∧
      (dispatchAction b sid stid k a).2.2 = k := by
  rw [dispatchAction]
  split_ifs with h1 h2 h3 h4 h5 h6 h7 h8
  all_goals exact ⟨rfl, rfl⟩

theorem dispatchAction_shot (b : Browser) (sid stid : Str) (k : Nat)
    (a : RawAction) (h : a.type.getD [] = str "screenshot") :
    dispatchAction b sid stid k a =
      (.ok none, (takeScreenshot b k sid stid (str "step")).1,
       (takeScreenshot b k sid stid (str "step")).2) := by
  rw [dispatchAction]
  rw [if_neg (fun h1 => absurd (h1.symm.trans h) (by decide))]
  rw [if_neg (fun h2 => absurd (h2.symm.trans h) (by decide))]
  rw [if_neg (fun h3 => absurd (h3.symm.trans h) (by decide))]
  rw [if_neg (fun h4 => absurd (h4.symm.trans h) (by decide))]
  rw [if_neg (fun h5 => absurd (h5.symm.trans h) (by decide))]
  rw [if_neg (fun h6 => absurd (h6.symm.trans h) (by decide))]
  rw [if_neg (fun h7 => absurd (h7.symm.trans h) (by decide))]
  rw [if_neg (fun h8 => absurd (h8.symm.trans h) (by decide))]
  rw [if_pos h]

theorem executeStep_status (b : Browser) (sid : Str) (db : Db) (k : Nat)
    (step : DbStepRow) :
    (executeStep b sid db k step).1.status = str "passed" ∨
      (executeStep b sid db k step).1.status = str "failed" := by
  cases h : step.translated_action with
  | none => simp [executeStep, h]
  | some a =>
    rcases hd : dispatchAction b sid step.id k a with ⟨o, es, k1⟩
    cases o with
    | ok actual => simp [executeStep, h, hd]
    | error e => simp [executeStep, h, hd]

theorem executeStep_critical (b : Browser) (sid : Str) (db : Db) (k : Nat)
    (step : DbStepRow) :
    (executeStep b sid db k step).1.critical = none := by
  cases h : step.translated_action with
  | none => simp [executeStep, h]
  | some a =>
    rcases hd : dispatchAction b sid step.id k a with ⟨o, es, k1⟩
    cases o with
    | ok actual => simp [executeStep, h, hd]
    | error e => simp [executeStep, h, hd]

theorem executeStep_sessions (b : Browser) (sid : Str) (db : Db) (k : Nat)
    (step : DbStepRow) :
    (executeStep b sid db k step).2.1.sessions = db.sessions := by
  cases h : step.translated_action with
  | none => simp [executeStep, h, updateStepResult]
  | some a =>
    rcases hd : dispatchAction b sid step.id k a with ⟨o, es, k1⟩
    cases o with
    | ok actual => simp [executeStep, h, hd, updateStepResult, updateStepStatus]
    | error e => simp [executeStep, h, hd, updateStepResult, updateStepStatus]

theorem executeTestLoop_len (b : Browser) (sid : Str) :
    ∀ (steps : List DbStepRow) (db : Db) (k : Nat),
      ((executeTestLoop b sid steps db k).1).length = steps.length := by
  intro steps
  induction steps with
  | nil => intro db k; rfl
  | cons s rest ih =>
    intro db k
    rw [executeTestLoop]
    have hc := executeStep_critical b sid db k s
    simp only [hc, Option.getD_none, Bool.and_false, Bool.false_eq_true, if_false]
    simp [ih]

/-! ### Claim C1: critical-step abort -/

/-- A browser oracle for a dead page: navigation and element lookups
fail; screenshots succeed. -/
def failBrowser : Browser :=
  { okBrowser with
    gotoResult := fun _ _ => .error (str "net::ERR_NAME_NOT_RESOLVED")
    waitForSelectorResult := fun _ _ => .error (str "Timeout 5000ms exceeded") }

def navBadRaw : RawAction :=
  { type := some (str "navigate"), target := some (str "https://bad.invalid"),
    value := some (str "https://bad.invalid"), description := none,
    waitFor := none, timeout := some 30000 }

def clickRaw : RawAction :=
  { type := some (str "click"), target := some (str "#btn"),
    value := none, description := none, waitFor := none, timeout := some 30000 }

def mkStepRow (i : Nat) (idn : Str) (a : RawAction) : DbStepRow :=
  { id := idn, session_id := str "s1", step_number := i,
    original_command := str "cmd", translated_action := some a,
    status := str "pending", actual_result := none, error_message := none,
    screenshot_path := none }

/-- A stored session `[navigate(bad-url), click(...), verify(...)]`. -/
def sessionDb : Db :=
  { sessions := [{ id := str "s1", name := str "t", status := str "pending",
                   total_steps := 3, passed_steps := 0, failed_steps := 0 }],
    steps := [mkStepRow 1 (str "i1") navBadRaw, mkStepRow 2 (str "i2") clickRaw,
              mkStepRow 3 (str "i3") verifyNope] }

/-- C1: the abort-on-critical-failure never happens.  `executeStep` places
no `critical` property on its results, so the stop condition in
`executeTest` is never true: every step of every session is executed
(first conjunct), and concretely, after the critical first navigate step
fails on a bad URL, steps 2 and 3 are still executed and end `failed`
rather than staying `pending`. -/
theorem critical_abort_dead (bb : Browser) :
    (∀ (sid : Str) (steps : List DbStepRow) (db : Db),
       ((executeTest bb sid steps db).1).length = steps.length) ∧
    ((executeTest failBrowser (str "s1") (stepsOf sessionDb (str "s1"))
        sessionDb).1.map StepResult.status =
      [str "failed", str "failed", str "failed"]) ∧
    rowStatus (executeTest failBrowser (str "s1") (stepsOf sessionDb (str "s1"))
        sessionDb).2 (str "i2") = some (str "failed") ∧
    rowStatus (executeTest failBrowser (str "s1") (stepsOf sessionDb (str "s1"))
        sessionDb).2 (str "i3") = some (str "failed") :=
  ⟨fun sid steps db => executeTestLoop_len bb sid steps db 0,
   by decide, by decide, by decide⟩

/-! ### Claim C2: execute() on a non-created session -/

def respResults (r : ExecuteResponse) : List StepResult :=
  match r with
  | .notFound => []
  | .ok _ _ res _ _ _ => res

/-- C2 (amended): `/execute/:sessionId` never checks the session's state:
for every existing session, whatever its stored status, execution
proceeds — the response is the success payload and every stored step is
run; only a missing session is rejected (with 404, not
`InvalidStateTransition`). -/
theorem executeSession_ignores_state (b : Browser) (db : Db) (sid : Str)
    (s : DbSessionRow) (h : findSession db sid = some s) :
    (executeSession b db sid).1 ≠ ExecuteResponse.notFound ∧
    ∃ st res t p f, (executeSession b db sid).1 = .ok sid st res t p f ∧
      res.length = (stepsOf db sid).length := by
  rw [executeSession, h]
  refine ⟨by simp, _, _, _, _, _, rfl, ?_⟩
  exact executeTestLoop_len b sid (stepsOf db sid) (updateSessionRunning db sid) 0

/-- A stored session already in a terminal state (`passed`), with one
pending step. -/
def passedDb : Db :=
  { sessions := [{ id := str "s1", name := str "t", status := str "passed",
                   total_steps := 1, passed_steps := 1, failed_steps := 0 }],
    steps := [mkStepRow 1 (str "i1") clickRaw] }

/-- C2 (counterexample): the stored session is in state `passed` — not
`created` — yet `execute()` does not fail with `InvalidStateTransition`:
it runs the session's step (one result is produced) and overwrites the
session status. -/
theorem executeSession_ignores_state_cex :
    (passedDb.sessions.map DbSessionRow.status = [str "passed"]) ∧
    (executeSession okBrowser passedDb (str "s1")).1 ≠ ExecuteResponse.notFound ∧
    (respResults (executeSession okBrowser passedDb (str "s1")).1).length = 1 :=
  ⟨by decide, by decide, by decide⟩

/-- C2 witness: the amended theorem applied to the stored `passed`
session. -/
theorem executeSession_ignores_state_w :
    (executeSession okBrowser passedDb (str "s1")).1 ≠ ExecuteResponse.notFound ∧
    ∃ st res t p f, (executeSession okBrowser passedDb (str "s1")).1 =
        .ok (str "s1") st res t p f ∧
      res.length = (stepsOf passedDb (str "s1")).length :=
  executeSession_ignores_state okBrowser passedDb (str "s1")
    { id := str "s1", name := str "t", status := str "passed",
      total_steps := 1, passed_steps := 1, failed_steps := 0 } rfl

/-! ### Claim C9: unconditional post-step screenshot -/

def shotRaw : RawAction :=
  { type := some (str "screenshot"), target := none, value := none,
    description := none, waitFor := none, timeout := none }

def shotStep : DbStepRow :=
  { id := str "i1", session_id := str "s", step_number := 1,
    original_command := str "take a screenshot", translated_action := some shotRaw,
    status := str "pending", actual_result := none, error_message := none,
    screenshot_path := none }

def navStep : DbStepRow :=
  { id := str "i2", session_id := str "s", step_number := 2,
    original_command := str "go", translated_action := some navBadRaw,
    status := str "pending", actual_result := none, error_message := none,
    screenshot_path := none }

def demoDb : Db := { sessions := [], steps := [shotStep, navStep] }

/-- C9 (counterexample): for an explicit `screenshot` action whose
capture succeeds, only that one capture is attempted in the whole step —
the post-step capture is skipped (`if (!screenshotPath)`), so no capture
happens "after the action in addition to the explicit one". -/
theorem screenshot_once_cex :
    (executeStep okBrowser (str "s") demoDb 0 shotStep).2.2 = 1 ∧
    (executeStep okBrowser (str "s") demoDb 0 shotStep).1.status = str "passed" ∧
    rowStatus (executeStep okBrowser (str "s") demoDb 0 shotStep).2.1 (str "i1") =
      some (str "passed") :=
  ⟨by decide, by decide, by decide⟩

/-- C9 (amended): for every executed step whose action is not an explicit
`screenshot`, exactly one capture is attempted after the action, whether
the step passes or fails (also on an unparseable action); for an explicit
`screenshot` action the post-step capture is attempted only when the
explicit capture failed; and a capture failure never changes the step's
status, because `takeScreenshot` returns null instead of throwing. -/
theorem screenshot_once_after_step (b : Browser) (f : Nat → Except Str Unit)
    (sid : Str) (db : Db) (k : Nat) (step : DbStepRow) :
    ((executeStep { b with screenshotResult := f } sid db k step).1.status =
      (executeStep b sid db k step).1.status) ∧
    (∀ a, step.translated_action = some a → a.type.getD [] ≠ str "screenshot" →
       (executeStep b sid db k step).2.2 = k + 1) ∧
    (∀ a, step.translated_action = some a → a.type.getD [] = str "screenshot" →
       (executeStep b sid db k step).2.2 =
         (if (b.screenshotResult k).isOk then k + 1 else k + 2)) ∧
    (step.translated_action = none → (executeStep b sid db k step).2.2 = k + 1) := by
  refine ⟨?_, ?_, ?_, ?_⟩
  · cases h : step.translated_action with
    | none => simp only [executeStep, h]
    | some a =>
      rcases hd : dispatchAction b sid step.id k a with ⟨o, es, k1⟩
      have hfst := dispatchAction_fst b f sid step.id k a
      rcases hd2 : dispatchAction { b with screenshotResult := f } sid step.id k a
        with ⟨o', es', k1'⟩
      rw [hd2, hd] at hfst
      simp only at hfst
      subst hfst
      cases o' with
      | ok actual => simp only [executeStep, h, hd, hd2]
      | error e => simp only [executeStep, h, hd, hd2]
  · intro a ha hty
    obtain ⟨h1, h2⟩ := dispatchAction_nonshot b sid step.id k a hty
    rcases hd : dispatchAction b sid step.id k a with ⟨o, es, k1⟩
    rw [hd] at h1 h2
    simp only at h1 h2
    subst h1
    subst h2
    cases o with
    | ok actual =>
      simp only [executeStep, ha, hd]
      exact takeScreenshot_k b k1 sid step.id (str "step")
    | error e =>
      simp only [executeStep, ha, hd]
      exact takeScreenshot_k b k1 sid step.id (str "error")
  · intro a ha hty
    simp only [executeStep, ha, dispatchAction_shot b sid step.id k a hty]
    cases hs : b.screenshotResult k with
    | ok u =>
      simp only [takeScreenshot, hs]
      rfl
    | error u =>
      simp only [takeScreenshot, hs]
      exact takeScreenshot_k b (k + 1) sid step.id (str "step")
  · intro h
    simp only [executeStep, h]
    exact takeScreenshot_k b k sid step.id (str "error")

/-- C9 witness: one post-step capture for a failing navigate step, and
the explicit-capture rule for a screenshot step on a healthy browser. -/
theorem screenshot_once_after_step_w :
    (executeStep okBrowser (str "s") demoDb 0 navStep).2.2 = 0 + 1 ∧
    (executeStep okBrowser (str "s") demoDb 0 shotStep).2.2 =
      (if (okBrowser.screenshotResult 0).isOk then 0 + 1 else 0 + 2) :=
  ⟨(screenshot_once_after_step okBrowser (fun _ => .error (str "x")) (str "s")
      demoDb 0 navStep).2.1 navBadRaw rfl (by decide),
   (screenshot_once_after_step okBrowser (fun _ => .error (str "x")) (str "s")
      demoDb 0 shotStep).2.2.1 shotRaw rfl rfl⟩

/-! ### Claim C3: status counting over a session -/

theorem update_map_ex (db : Db) (stepId : Str) (res : StepResult) (shot : Option Str) :
    ∃ g, (updateStepResult db stepId res shot).steps = db.steps.map g ∧
      ∀ r, (g r).id = r.id ∧ (g r).session_id = r.session_id ∧
        (r.id = stepId → (g r).status = res.status) ∧ (r.id ≠ stepId → g r = r) := by
  refine ⟨fun r => if r.id = stepId then
      { r with status := res.status, actual_result := res.actualResult,
               error_message := res.error, screenshot_path := shot }
    else r, rfl, ?_⟩
  intro r
  by_cases hr : r.id = stepId <;> simp [hr]

theorem updateStatus_map_ex (db : Db) (stepId stat : Str) :
    ∃ g, (updateStepStatus db stepId stat).steps = db.steps.map g ∧
      ∀ r, (g r).id = r.id ∧ (g r).session_id = r.session_id ∧
        (r.id = stepId → (g r).status = stat) ∧ (r.id ≠ stepId → g r = r) := by
  refine ⟨fun r => if r.id = stepId then { r with status := stat } else r, rfl, ?_⟩
  intro r
  by_cases hr : r.id = stepId <;> simp [hr]

/-- The store effect of one `executeStep`: rows are mapped in place,
ids and session ids kept, the step's own row receiving the result
status and every other row untouched. -/
theorem executeStep_steps (b : Browser) (sid : Str) (db : Db) (k : Nat)
    (step : DbStepRow) :
    ∃ g : DbStepRow → DbStepRow,
      (executeStep b sid db k step).2.1.steps = db.steps.map g ∧
      ∀ r, (g r).id = r.id ∧ (g r).session_id = r.session_id ∧
        (r.id = step.id → (g r).status = (executeStep b sid db k step).1.status) ∧
        (r.id ≠ step.id → g r = r) := by
  cases h : step.translated_action with
  | none =>
    simp only [executeStep, h]
    obtain ⟨g, hg, hp⟩ := update_map_ex db step.id _ _
    exact ⟨g, hg, fun r => ⟨(hp r).1, (hp r).2.1,
      fun hid => (hp r).2.2.1 hid, (hp r).2.2.2⟩⟩
  | some a =>
    rcases hd : dispatchAction b sid step.id k a with ⟨o, es, k1⟩
    cases o with
    | ok actual =>
      simp only [executeStep, h, hd]
      obtain ⟨g1, hg1, hp1⟩ := updateStatus_map_ex db step.id (str "running")
      obtain ⟨g2, hg2, hp2⟩ :=
        update_map_ex (updateStepStatus db step.id (str "running")) step.id _ _
      refine ⟨fun r => g2 (g1 r), ?_, ?_⟩
      · rw [hg2, hg1, List.map_map]
        rfl
      · intro r
        by_cases hr : r.id = step.id
        · refine ⟨?_, ?_, fun _ => ?_, fun hne => absurd hr hne⟩
          · show (g2 (g1 r)).id = r.id
            rw [(hp2 (g1 r)).1, (hp1 r).1]
          · show (g2 (g1 r)).session_id = r.session_id
            rw [(hp2 (g1 r)).2.1, (hp1 r).2.1]
          · exact (hp2 (g1 r)).2.2.1 (((hp1 r).1).trans hr)
        · have e1 : g1 r = r := (hp1 r).2.2.2 hr
          have e2 : g2 r = r := (hp2 r).2.2.2 hr
          have e12 : g2 (g1 r) = r := by rw [e1, e2]
          exact ⟨by show (g2 (g1 r)).id = r.id; rw [e12],
            by show (g2 (g1 r)).session_id = r.session_id; rw [e12],
            fun hid => absurd hid hr,
            fun _ => by show g2 (g1 r) = r; exact e12⟩
    | error e =>
      simp only [executeStep, h, hd]
      obtain ⟨g1, hg1, hp1⟩ := updateStatus_map_ex db step.id (str "running")
      obtain ⟨g2, hg2, hp2⟩ :=
        update_map_ex (updateStepStatus db step.id (str "running")) step.id _ _
      refine ⟨fun r => g2 (g1 r), ?_, ?_⟩
      · rw [hg2, hg1, List.map_map]
        rfl
      · intro r
        by_cases hr : r.id = step.id
        · refine ⟨?_, ?_, fun _ => ?_, fun hne => absurd hr hne⟩
          · show (g2 (g1 r)).id = r.id
            rw [(hp2 (g1 r)).1, (hp1 r).1]
          · show (g2 (g1 r)).session_id = r.session_id
            rw [(hp2 (g1 r)).2.1, (hp1 r).2.1]
          · exact (hp2 (g1 r)).2.2.1 (((hp1 r).1).trans hr)
        · have e1 : g1 r = r := (hp1 r).2.2.2 hr
          have e2 : g2 r = r := (hp2 r).2.2.2 hr
          have e12 : g2 (g1 r) = r := by rw [e1, e2]
          exact ⟨by show (g2 (g1 r)).id = r.id; rw [e12],
            by show (g2 (g1 r)).session_id = r.session_id; rw [e12],
            fun hid => absurd hid hr,
            fun _ => by show g2 (g1 r) = r; exact e12⟩

/-- After the loop, every surviving row keeps its id and session, and a
row whose id was among the executed steps ends `passed` or `failed`
while any other row keeps its status. -/
theorem executeTestLoop_good (b : Browser) (sid : Str) :
    ∀ (S : List DbStepRow) (db : Db) (k : Nat) (r : DbStepRow),
      r ∈ ((executeTestLoop b sid S db k).2.1).steps →
      ∃ r0 ∈ db.steps, r.id = r0.id ∧ r.session_id = r0.session_id ∧
        (r0.id ∈ S.map DbStepRow.id →
          r.status = str "passed" ∨ r.status = str "failed") ∧
        (r0.id ∉ S.map DbStepRow.id → r.status = r0.status) := by
  intro S
  induction S with
  | nil =>
    intro db k r hr
    exact ⟨r, hr, rfl, rfl, fun hmem => absurd hmem (by simp), fun _ => rfl⟩
  | cons s rest ih =>
    intro db k r hr
    rw [executeTestLoop] at hr
    have hcrit := executeStep_critical b sid db k s
    simp only [hcrit, Option.getD_none, Bool.and_false, Bool.false_eq_true,
      if_false] at hr
    obtain ⟨r1, hr1, hid1, hsid1, hcov1, hncov1⟩ :=
      ih (executeStep b sid db k s).2.1 (executeStep b sid db k s).2.2 r hr
    obtain ⟨g, hg, hp⟩ := executeStep_steps b sid db k s
    rw [hg] at hr1
    obtain ⟨r0, hr0, hr1eq⟩ := List.mem_map.mp hr1
    subst hr1eq
    refine ⟨r0, hr0, ?_, ?_, ?_, ?_⟩
    · rw [hid1, (hp r0).1]
    · rw [hsid1, (hp r0).2.1]
    · intro hmem
      by_cases hrm : r0.id ∈ rest.map DbStepRow.id
      · exact hcov1 (by rw [(hp r0).1]; exact hrm)
      · have hs : r0.id = s.id := by
          simp only [List.map_cons, List.mem_cons] at hmem
          exact hmem.resolve_right hrm
        have hst : r.status = (g r0).status :=
          hncov1 (by rw [(hp r0).1]; exact hrm)
        rw [hst, (hp r0).2.2.1 hs]
        exact executeStep_status b sid db k s
    · intro hnm
      simp only [List.map_cons, List.mem_cons, not_or] at hnm
      obtain ⟨hne, hnr⟩ := hnm
      have hgr : g r0 = r0 := (hp r0).2.2.2 hne
      have hst : r.status = (g r0).status :=
        hncov1 (by rw [(hp r0).1]; exact hnr)
      rw [hst, hgr]

theorem executeTestLoop_sessions (b : Browser) (sid : Str) :
    ∀ (S : List DbStepRow) (db : Db) (k : Nat),
      ((executeTestLoop b sid S db k).2.1).sessions = db.sessions := by
  intro S
  induction S with
  | nil => intro db k; rfl
  | cons s rest ih =>
    intro db k
    rw [executeTestLoop]
    have hcrit := executeStep_critical b sid db k s
    simp only [hcrit, Option.getD_none, Bool.and_false, Bool.false_eq_true,
      if_false]
    rw [ih]
    exact executeStep_sessions b sid db k s

theorem executeTestLoop_rowsLen (b : Browser) (sid sid' : Str) :
    ∀ (S : List DbStepRow) (db : Db) (k : Nat),
      (((executeTestLoop b sid S db k).2.1).steps.filter
        (fun r => decide (r.session_id = sid'))).length =
      (db.steps.filter (fun r => decide (r.session_id = sid'))).length := by
  intro S
  induction S with
  | nil => intro db k; rfl
  | cons s rest ih =>
    intro db k
    rw [executeTestLoop]
    have hcrit := executeStep_critical b sid db k s
    simp only [hcrit, Option.getD_none, Bool.and_false, Bool.false_eq_true,
      if_false]
    rw [ih]
    obtain ⟨g, hg, hp⟩ := executeStep_steps b sid db k s
    rw [hg, ← List.countP_eq_length_filter, ← List.countP_eq_length_filter,
      List.countP_map]
    refine List.countP_congr fun r _ => ?_
    show decide ((g r).session_id = sid') = true ↔ decide (r.session_id = sid') = true
    rw [(hp r).2.1]

theorem insertByNum_perm (r : DbStepRow) : ∀ l, (insertByNum r l).Perm (r :: l) := by
  intro l
  induction l with
  | nil => exact List.Perm.refl _
  | cons x xs ih =>
    rw [insertByNum]
    by_cases hc : r.step_number < x.step_number
    · rw [if_pos hc]
    · rw [if_neg hc]
      exact (ih.cons x).trans (List.Perm.swap r x xs)

theorem sortByNum_perm : ∀ l, (sortByNum l).Perm l := by
  intro l
  induction l with
  | nil => exact List.Perm.refl _
  | cons r rs ih => exact (insertByNum_perm r (sortByNum rs)).trans (ih.cons r)

theorem stepsOf_covers (db : Db) (sid : Str) (r0 : DbStepRow)
    (hmem : r0 ∈ db.steps) (hsid : r0.session_id = sid) :
    r0.id ∈ (stepsOf db sid).map DbStepRow.id := by
  have h1 : r0 ∈ db.steps.filter (fun r => decide (r.session_id = sid)) :=
    List.mem_filter.mpr ⟨hmem, by simp [hsid]⟩
  have h2 : r0 ∈ stepsOf db sid := ((sortByNum_perm _).mem_iff).mpr h1
  exact List.mem_map_of_mem _ h2

theorem count_three (rows : List DbStepRow)
    (h : ∀ r ∈ rows, r.status = str "passed" ∨ r.status = str "failed") :
    (rows.filter (fun r => decide (r.status = str "passed"))).length +
    (rows.filter (fun r => decide (r.status = str "failed"))).length +
    (rows.filter (fun r => decide (r.status = str "pending"))).length =
      rows.length := by
  induction rows with
  | nil => rfl
  | cons r rest ih =>
    have hrest : ∀ x ∈ rest, x.status = str "passed" ∨ x.status = str "failed" :=
      fun x hx => h x (by simp [hx])
    have ihr := ih hrest
    have hpf : ¬((str "passed" : Str) = str "failed") := by decide
    have hpp : ¬((str "passed" : Str) = str "pending") := by decide
    have hfp : ¬((str "failed" : Str) = str "passed") := by decide
    have hfpd : ¬((str "failed" : Str) = str "pending") := by decide
    rcases h r (by simp) with hr | hr <;>
      · simp [List.filter_cons, hr, hpf, hpp, hfp, hfpd]
        omega

theorem createLoop_sessions (llm : Str → LlmResult) (gen : Nat → Str) (sid : Str) :
    ∀ (cmds : List Str) (i : Nat) (db : Db),
      ((createLoop llm gen sid i cmds db).1).sessions = db.sessions := by
  intro cmds
  induction cmds with
  | nil => intro i db; rfl
  | cons c rest ih =>
    intro i db
    rw [createLoop]
    cases ht : translateCommand (llm c) c with
    | ok a => exact ih (i + 1) _
    | error e => exact ih (i + 1) db

theorem createLoop_rowsLen (llm : Str → LlmResult) (gen : Nat → Str) (sid : Str) :
    ∀ (cmds : List Str) (i : Nat) (db : Db),
      (∀ c ∈ cmds, (translateCommand (llm c) c).isOk = true) →
      (((createLoop llm gen sid i cmds db).1).steps.filter
        (fun r => decide (r.session_id = sid))).length =
      (db.steps.filter (fun r => decide (r.session_id = sid))).length +
        cmds.length := by
  intro cmds
  induction cmds with
  | nil => intro i db _; rfl
  | cons c rest ih =>
    intro i db hok
    rw [createLoop]
    cases ht : translateCommand (llm c) c with
    | error e =>
      have := hok c (by simp)
      rw [ht] at this
      simp [Except.isOk, Except.toBool] at this
    | ok a =>
      have hrest : ∀ x ∈ rest, (translateCommand (llm x) x).isOk = true :=
        fun x hx => hok x (by simp [hx])
      rw [ih (i + 1) _ hrest]
      simp only [List.filter_append, List.length_append]
      simp [List.filter_cons]
      omega

/-- The create-then-execute pipeline on a fresh store. -/
def c3Pipeline (llm : Str → LlmResult) (gen : Nat → Str) (b : Browser)
    (sid name : Str) (commands : List Str) : Db :=
  (executeSession b (createSession llm gen sid name commands emptyDb).1 sid).2

/-- C3 (amended): for a session created from commands that all translate
successfully and then executed, the persisted step statuses satisfy
`passed + failed + pending = total_steps`; commands whose translation
fails are not persisted as steps, so the invariant as stated only holds
when every translation succeeds (see the counterexample). -/
theorem session_counts (llm : Str → LlmResult) (gen : Nat → Str) (b : Browser)
    (sid name : Str) (commands : List Str)
    (hok : ∀ c ∈ commands, (translateCommand (llm c) c).isOk = true) :
    countStatus (c3Pipeline llm gen b sid name commands) sid (str "passed") +
      countStatus (c3Pipeline llm gen b sid name commands) sid (str "failed") +
      countStatus (c3Pipeline llm gen b sid name commands) sid (str "pending") =
    totalSteps (c3Pipeline llm gen b sid name commands) sid ∧
    totalSteps (c3Pipeline llm gen b sid name commands) sid = commands.length := by
  set dbA := (createSession llm gen sid name commands emptyDb).1 with hdbA
  have hsessA : dbA.sessions =
      [{ id := sid, name := name, status := str "pending",
         total_steps := commands.length, passed_steps := 0, failed_steps := 0 }] := by
    rw [hdbA, createSession, createLoop_sessions llm gen sid commands 0 _]
    rfl
  have hfindA : findSession dbA sid =
      some { id := sid, name := name, status := str "pending",
             total_steps := commands.length, passed_steps := 0, failed_steps := 0 } := by
    rw [findSession, hsessA]
    simp [List.find?]
  have hsess1 : (updateSessionRunning dbA sid).sessions =
      [{ id := sid, name := name, status := str "running",
         total_steps := commands.length, passed_steps := 0, failed_steps := 0 }] := by
    rw [updateSessionRunning, hsessA]
    simp
  set S := stepsOf dbA sid with hS
  set run := executeTestLoop b sid S (updateSessionRunning dbA sid) 0 with hrun
  have hdb2c : c3Pipeline llm gen b sid name commands =
      updateSessionFinal run.2.1 sid
        (if (run.1.filter fun r => decide (r.status = str "failed")).length > 0
         then str "failed" else str "passed")
        (run.1.filter fun r => decide (r.status = str "passed")).length
        (run.1.filter fun r => decide (r.status = str "failed")).length := by
    rw [c3Pipeline, ← hdbA]
    simp only [executeSession, hfindA]
    rw [executeTest, ← hS, ← hrun]
  obtain ⟨fs, ps, fl, hdb2⟩ : ∃ fs ps fl, c3Pipeline llm gen b sid name commands =
      updateSessionFinal run.2.1 sid fs ps fl := ⟨_, _, _, hdb2c⟩
  have hdb2steps : (c3Pipeline llm gen b sid name commands).steps = run.2.1.steps := by
    rw [hdb2]
    rfl
  have hrunsess : run.2.1.sessions =
      [{ id := sid, name := name, status := str "running",
         total_steps := commands.length, passed_steps := 0, failed_steps := 0 }] := by
    rw [hrun, executeTestLoop_sessions]
    exact hsess1
  have hdb2sess : (c3Pipeline llm gen b sid name commands).sessions =
      [{ id := sid, name := name, status := fs,
         total_steps := commands.length, passed_steps := ps, failed_steps := fl }] := by
    rw [hdb2, updateSessionFinal, hrunsess]
    simp
  have htot : totalSteps (c3Pipeline llm gen b sid name commands) sid =
      commands.length := by
    rw [totalSteps, findSession, hdb2sess]
    simp [List.find?]
  refine ⟨?_, htot⟩
  rw [htot]
  have hgood : ∀ r ∈ sessionRows (c3Pipeline llm gen b sid name commands) sid,
      r.status = str "passed" ∨ r.status = str "failed" := by
    intro r hr
    rw [sessionRows, List.mem_filter] at hr
    obtain ⟨hmem, hpred⟩ := hr
    have hrsid : r.session_id = sid := of_decide_eq_true hpred
    rw [hdb2steps, hrun] at hmem
    obtain ⟨r0, hr0, hid, hsid0, hcov, hncov⟩ :=
      executeTestLoop_good b sid S (updateSessionRunning dbA sid) 0 r hmem
    apply hcov
    rw [hS]
    exact stepsOf_covers dbA sid r0 hr0 (hsid0 ▸ hrsid)
  have hlenA : (dbA.steps.filter (fun r => decide (r.session_id = sid))).length =
      commands.length := by
    rw [hdbA, createSession, createLoop_rowsLen llm gen sid commands 0 _ hok]
    show ((List.filter _ ([] : List DbStepRow)).length + commands.length = commands.length)
    simp
  have hlen2 : (sessionRows (c3Pipeline llm gen b sid name commands) sid).length =
      commands.length := by
    rw [sessionRows, hdb2steps, hrun, executeTestLoop_rowsLen b sid sid S _ 0]
    exact hlenA
  rw [← hlen2]
  exact count_three _ hgood

def llmDown : Str → LlmResult := fun _ => .unavailable

def genId : Nat → Str := fun n => [Char.ofNat (65 + n)]

/-- C3 (counterexample): of two commands, the second (`do something`)
fails to translate and is never persisted as a step; after execution
`passed + failed + pending = 1` while the session row records
`total_steps = 2`. -/
theorem session_counts_cex :
    countStatus (c3Pipeline llmDown genId okBrowser (str "sid") (str "n")
        [str "Navigate to https://example.com", str "do something"]) (str "sid")
        (str "passed") +
      countStatus (c3Pipeline llmDown genId okBrowser (str "sid") (str "n")
        [str "Navigate to https://example.com", str "do something"]) (str "sid")
        (str "failed") +
      countStatus (c3Pipeline llmDown genId okBrowser (str "sid") (str "n")
        [str "Navigate to https://example.com", str "do something"]) (str "sid")
        (str "pending") = 1 ∧
    totalSteps (c3Pipeline llmDown genId okBrowser (str "sid") (str "n")
        [str "Navigate to https://example.com", str "do something"]) (str "sid") = 2 :=
  ⟨by decide, by decide⟩

/-- C3 witness: the amended theorem for a one-command session whose
translation succeeds. -/
theorem session_counts_w :
    countStatus (c3Pipeline llmDown genId okBrowser (str "sid") (str "n")
        [str "Navigate to https://example.com"]) (str "sid") (str "passed") +
      countStatus (c3Pipeline llmDown genId okBrowser (str "sid") (str "n")
        [str "Navigate to https://example.com"]) (str "sid") (str "failed") +
      countStatus (c3Pipeline llmDown genId okBrowser (str "sid") (str "n")
        [str "Navigate to https://example.com"]) (str "sid") (str "pending") =
    totalSteps (c3Pipeline llmDown genId okBrowser (str "sid") (str "n")
        [str "Navigate to https://example.com"]) (str "sid") ∧
    totalSteps (c3Pipeline llmDown genId okBrowser (str "sid") (str "n")
        [str "Navigate to https://example.com"]) (str "sid") = 1 :=
  session_counts llmDown genId okBrowser (str "sid") (str "n")
    [str "Navigate to https://example.com"] (by decide)

end AutoTest
